import Mathlib

/-!
Verification of the agent control-panel application (`app.py`).

The application is a browser control panel for a remote agent-hosting
service.  The claims checked here concern its pure decision logic:

* the settings loader `read_setting` (strip whitespace and quote
  characters, stop on a missing required value),
* the code-interpreter file listing `list_agent_ci_files` (placeholder
  row when a file id no longer resolves to metadata),
* the tool-resources update `set_agent_ci_file_ids` (re-adding the
  code-interpreter tool when it is absent),
* the per-file delete handler (filtering the id out of the list),
* the upload-and-persist reconciler (overwrite by case-insensitive
  filename, or append),
* the run-status polling loop and the assistant-output filter.

Remote state (the agent's `tool_resources.code_interpreter.file_ids`
list, file metadata, thread messages) is passed in explicitly; HTTP
fetches that can fail are modelled as `Except`-valued oracles.
-/

set_option autoImplicit false

/-! ### Settings loader (`read_setting`, module prologue) -/

/-- Python's `str.strip(chars)`: drop the characters satisfying `p` from
both ends of the string. -/
def pyStrip (p : Char → Bool) (s : String) : String :=
  String.mk (((s.data.dropWhile p).reverse.dropWhile p).reverse)

/-- The double-quote character. -/
def dquoteChar : Char := Char.ofNat 34

/-- The single-quote character. -/
def squoteChar : Char := Char.ofNat 39

/-- `os.getenv(key, default).strip().strip(dquote).strip(squote)` —
the raw value of `read_setting` before the required-check.  `env` is the
process environment: `none` means the variable is absent. -/
def strippedSetting (env : String → Option String) (key default : String) : String :=
  pyStrip (fun c => c == squoteChar)
    (pyStrip (fun c => c == dquoteChar)
      (pyStrip Char.isWhitespace ((env key).getD default)))

/-- The fatal message shown by `read_setting` for a missing value. -/
def missingMsg (key : String) : String :=
  "Missing setting: " ++ key ++ ". Add it to .env or environment variables."

/-- `read_setting` from `app.py`: strip the environment value; when it is
required and empty, show the missing-setting error and stop the script
(modelled as `Except.error`). -/
def read_setting (env : String → Option String) (key : String)
    (required : Bool) (default : String) : Except String String :=
  let val := strippedSetting env key default
  if required && val == "" then Except.error (missingMsg key)
  else Except.ok val

/-- Python's `str.rstrip(slash)` applied to the endpoint. -/
def pyRstripSlash (s : String) : String :=
  String.mk ((s.data.reverse.dropWhile (fun c => c == Char.ofNat 47)).reverse)

/-- The two settings the module prologue reads.  Every network-facing
client in the program is built from this record, so no network call can
happen unless `appInit` returns `Except.ok`. -/
structure AppConfig where
  endpoint : String
  orchestratorAgentId : String
deriving DecidableEq

/-- The module prologue of `app.py`: read `PROJECT_ENDPOINT` (rstripping
a trailing slash) and `ORCHESTRATOR_AGENT_ID`; an error from either
`read_setting` stops the script before any client is constructed. -/
def appInit (env : String → Option String) : Except String AppConfig := do
  let ep ← read_setting env "PROJECT_ENDPOINT" true ""
  let oid ← read_setting env "ORCHESTRATOR_AGENT_ID" true ""
  Except.ok { endpoint := pyRstripSlash ep, orchestratorAgentId := oid }

/-! ### File listing (`list_agent_ci_files`) -/

/-- The metadata body returned by `GET /files/{id}`; the JSON fields
`filename` and `bytes` may be absent (`dict.get` with defaults). -/
structure FileMeta where
  filename : Option String
  bytes : Option Nat
deriving DecidableEq

/-- One row of the code-interpreter file listing. -/
structure CIFileRow where
  fileId : String
  filename : String
  bytes : Option Nat
deriving DecidableEq

/-- `list_agent_ci_files` from `app.py`: resolve every file id of the
agent's `tool_resources.code_interpreter.file_ids` through the metadata
oracle `fetch` (an `Except.error` is the `except` branch: the row is
kept with the `"(unavailable)"` placeholder and no size). -/
def list_agent_ci_files (fileIds : List String)
    (fetch : String → Except Unit FileMeta) : List CIFileRow :=
  fileIds.map (fun fid =>
    match fetch fid with
    | Except.ok meta =>
        { fileId := fid, filename := meta.filename.getD "", bytes := meta.bytes }
    | Except.error _ =>
        { fileId := fid, filename := "(unavailable)", bytes := none })

/-! ### Tool-resources update (`set_agent_ci_file_ids`) -/

/-- An entry of the agent's `tools` list, reduced to its `"type"` field;
`none` is a tool object without a `type` key. -/
abbrev ToolEntry := Option String

/-- The body `set_agent_ci_file_ids` posts to the update endpoint. -/
structure UpdateBody where
  tools : List ToolEntry
  file_ids : List String
deriving DecidableEq

/-- The tools-list fixup inside `set_agent_ci_file_ids`: when no entry
has type `code_interpreter`, append one. -/
def ensureCITool (tools : List ToolEntry) : List ToolEntry :=
  if tools.any (fun t => t == some "code_interpreter") then tools
  else tools ++ [some "code_interpreter"]

/-- `set_agent_ci_file_ids` from `app.py`: build the update body from
the agent's current tools list and the new file-id list. -/
def set_agent_ci_file_ids (tools : List ToolEntry) (fileIds : List String) : UpdateBody :=
  { tools := ensureCITool tools, file_ids := fileIds }

/-! ### Per-file Delete button handler -/

/-- The id list the Delete button persists:
`[x["file_id"] for x in ci_files if x["file_id"] != f["file_id"]]`. -/
def deleteRemaining (ciFiles : List CIFileRow) (targetId : String) : List String :=
  (ciFiles.filter (fun x => !(x.fileId == targetId))).map (fun x => x.fileId)

/-! ### Upload-and-persist reconciler -/

/-- Python's `str.lower()` (per-character lowercase), as applied to the
filenames and to `uploaded.name`. -/
def pyLower (s : String) : String := String.mk (s.data.map Char.toLower)

/-- The lookup `existing_by_name[new_name_lc]`: the dict comprehension
keys each row by its lowercased filename, later rows overwriting earlier
ones, so the lookup returns the **last** row whose lowercased filename
equals `newNameLc`. -/
def lookupByName (ciFiles : List CIFileRow) (newNameLc : String) : Option CIFileRow :=
  ciFiles.reverse.find? (fun e => pyLower e.filename == newNameLc)

/-- A single-quote string, for rebuilding the UI messages verbatim. -/
def quoteStr : String := squoteChar.toString

/-- The result of the upload-and-persist handler that the claims
observe: the id list written to tool-resources, the success banner, and
any surfaced error. -/
structure PersistOutcome where
  ids : List String
  success : Option String
  surfacedError : Option String
deriving DecidableEq

/-- The `try ... except Exception: pass` around
`agents.files.delete(file_id=old_id)`: whatever the delete call does,
nothing escapes. -/
def bestEffortDelete (outcome : Except String Unit) : Unit :=
  match outcome with
  | Except.ok u => u
  | Except.error _ => ()

/-- The upload-and-persist handler of `app.py` after the file upload
returned `newId`: match the uploaded name case-insensitively against the
listed rows; on a match substitute `newId` for the matched old id across
the id list, persist, and best-effort delete the old id; otherwise
append `newId`.  `deleteOldResult` is the outcome of the remote delete
call in the overwrite branch. -/
def uploadPersistOutcome (ciFiles : List CIFileRow) (newName newId : String)
    (deleteOldResult : Except String Unit) : PersistOutcome :=
  let existingIds := ciFiles.map (fun e => e.fileId)
  match lookupByName ciFiles (pyLower newName) with
  | some old =>
      let newIds := existingIds.map (fun fid => if fid == old.fileId then newId else fid)
      let _ := bestEffortDelete deleteOldResult
      { ids := newIds
        success := some ("File " ++ quoteStr ++ newName ++ quoteStr ++ " has been overwritten in Code Interpreter.")
        surfacedError := none }
  | none =>
      { ids := existingIds ++ [newId]
        success := some ("File " ++ quoteStr ++ newName ++ quoteStr ++ " attached to Code Interpreter.")
        surfacedError := none }

/-- The id list the handler persists (the delete outcome cannot change
it; `Except.ok ()` is the canonical instantiation). -/
def uploadPersistIds (ciFiles : List CIFileRow) (newName newId : String) : List String :=
  (uploadPersistOutcome ciFiles newName newId (Except.ok ())).ids

/-- The filename a file id resolves to after the operation: the freshly
uploaded id carries the uploaded name; any other id keeps the filename
it had in the pre-operation listing. -/
def postName (ciFiles : List CIFileRow) (newName newId : String) (fid : String) : String :=
  if fid == newId then newName
  else
    match ciFiles.find? (fun e => e.fileId == fid) with
    | some e => e.filename
    | none => ""

/-- How many ids of the persisted list map (case-insensitively) to the
uploaded filename after the operation. -/
def matchingCount (ciFiles : List CIFileRow) (newName newId : String) : Nat :=
  ((uploadPersistIds ciFiles newName newId).filter
    (fun fid => pyLower (postName ciFiles newName newId fid) == pyLower newName)).length

/-! ### Run-status polling loop -/

/-- The loop guard `status in ("queued", "in_progress", "requires_action")`. -/
def pollingStatus (s : String) : Bool :=
  s == "queued" || s == "in_progress" || s == "requires_action"

/-- The polling loop of the Run handler.  `statuses n` is the status the
`n`-th fetch returns (`statuses 0` comes from `runs.create`, later ones
from `runs.get`); `i` is the index of the status currently held, `slept`
the time-units of `time.sleep(2)` performed so far, and `fuel` bounds
the remaining iterations so the recursion is total.  The result is
`some (total sleep, final status)` once the status leaves the polling
set, `none` when the fuel runs out first. -/
def pollLoop (statuses : Nat → String) : Nat → Nat → Nat → Option (Nat × String)
  | 0, _, _ => none
  | Nat.succ fuel, i, slept =>
    if pollingStatus (statuses i) then pollLoop statuses fuel (i + 1) (slept + 2)
    else some (slept, statuses i)

/-- The Run handler's poll, started from the status of the just-created
run with no sleep performed yet. -/
def runPoll (statuses : Nat → String) (fuel : Nat) : Option (Nat × String) :=
  pollLoop statuses fuel 0 0

/-! ### Assistant-output filter -/

/-- A thread message: role, owning run id, and content parts.  A part is
`some v` when it is a text part carrying value `v`, `none` when it has
no text or no value (`getattr(tmc, "text", None)` / `.value` missing). -/
structure ChatMessage where
  role : String
  runId : String
  parts : List (Option String)
deriving DecidableEq

/-- The remote listing endpoint as the program calls it:
`messages.list(thread_id, run_id=run.id, order="asc")` — the thread's
messages in ascending order restricted to the given run id. -/
def listMessagesByRun (thread : List ChatMessage) (runId : String) : List ChatMessage :=
  thread.filter (fun m => m.runId == runId)

/-- The truthiness test of the handler's inner loop:
`if getattr(tmc, "text", None) and getattr(tmc.text, "value", None)` —
a part contributes its value only when the value exists and is not the
empty string (an empty Python string is falsy). -/
def keepText (p : Option String) : Option String :=
  match p with
  | some v => if v == "" then none else some v
  | none => none

/-- The `chunks` list the Run handler accumulates over the page:
non-assistant messages are skipped, each remaining message contributes
its truthy text values in order. -/
def collectChunks (page : List ChatMessage) : List String :=
  (page.map (fun m => if m.role == "assistant" then m.parts.filterMap keepText else [])).flatten

/-- What the Run handler renders after the poll. -/
inductive RunOutput
  | text (s : String)
  | noResponse
deriving DecidableEq

/-- The tail of the Run handler: list the just-created run's messages,
collect the assistant text chunks, and either render them joined by a
blank line or show the "No assistant response generated." warning. -/
def renderRunOutput (thread : List ChatMessage) (runId : String) : RunOutput :=
  let chunks := collectChunks (listMessagesByRun thread runId)
  if chunks.isEmpty then RunOutput.noResponse
  else RunOutput.text (String.intercalate "\n\n" chunks)

/-- Follows the spec's words, for comparison with `renderRunOutput`:
concatenate **all** text segments of the run's assistant entries in
listing order, joined by a blank line, and report no-response only when
zero such segments exist. -/
def specRenderRunOutput (thread : List ChatMessage) (runId : String) : RunOutput :=
  let segs := ((listMessagesByRun thread runId).map
    (fun m => if m.role == "assistant" then m.parts.filterMap id else [])).flatten
  if segs.isEmpty then RunOutput.noResponse
  else RunOutput.text (String.intercalate "\n\n" segs)

/-! ### Concrete inputs used by counterexamples and witnesses -/

/-- An agent state whose listing already holds two rows whose filenames
match case-insensitively (the remote service does not forbid this). -/
def dupNameRows : List CIFileRow :=
  [{ fileId := "id1", filename := "Data.csv", bytes := some 10 },
   { fileId := "id2", filename := "data.csv", bytes := some 20 }]

/-- A single-row listing for the witnesses. -/
def oneRow : List CIFileRow :=
  [{ fileId := "id1", filename := "data.csv", bytes := some 10 }]

/-- A two-row listing with distinct ids and distinct names. -/
def twoRows : List CIFileRow :=
  [{ fileId := "id1", filename := "Report.PDF", bytes := some 5 },
   { fileId := "id2", filename := "data.csv", bytes := some 10 }]

/-- A listing in which the same file id appears twice (the remote
service does not enforce uniqueness of `file_ids`). -/
def dupIdRows : List CIFileRow :=
  [{ fileId := "a", filename := "f1", bytes := none },
   { fileId := "a", filename := "f1", bytes := none }]

/-- A run whose polls go `queued`, `in_progress`, then `completed`. -/
def sampleStatuses : Nat → String :=
  fun n => if n == 0 then "queued" else if n == 1 then "in_progress" else "completed"

/-- An environment with no variables set at all. -/
def emptyEnv : String → Option String := fun _ => none

/-- A metadata oracle that fails only on the id `"bad"`. -/
def sampleFetch : String → Except Unit FileMeta :=
  fun fid => if fid == "bad" then Except.error ()
             else Except.ok { filename := some ("name-" ++ fid), bytes := some 3 }

/-- A thread holding one assistant message of run `run1` whose middle
text part carries the empty string. -/
def emptySegThread : List ChatMessage :=
  [{ role := "assistant", runId := "run1", parts := [some "a", some "", some "b"] }]

/-! ### Helper lemmas -/

/-- A list with two distinct members has at least two elements. -/
theorem two_mem_length {α : Type} {a b : α} {l : List α}
    (ha : a ∈ l) (hb : b ∈ l) (hne : a ≠ b) : 2 ≤ l.length := by
  induction l with
  | nil => cases ha
  | cons x xs ih =>
    rcases List.mem_cons.mp ha with rfl | ha2
    · rcases List.mem_cons.mp hb with rfl | hb2
      · exact absurd rfl hne
      · have h1 : 1 ≤ xs.length := List.length_pos.mpr (List.ne_nil_of_mem hb2)
        simp only [List.length_cons]
        omega
    · rcases List.mem_cons.mp hb with rfl | hb2
      · have h1 : 1 ≤ xs.length := List.length_pos.mpr (List.ne_nil_of_mem ha2)
        simp only [List.length_cons]
        omega
      · have := ih ha2 hb2
        simp only [List.length_cons]
        omega

/-- The listing preserves the file ids: row `i` of
`list_agent_ci_files` carries exactly the `i`-th input id. -/
theorem list_agent_ci_files_ids (fileIds : List String)
    (fetch : String → Except Unit FileMeta) :
    (list_agent_ci_files fileIds fetch).map (fun r => r.fileId) = fileIds := by
  induction fileIds with
  | nil => rfl
  | cons a l ih =>
    simp only [list_agent_ci_files, List.map_cons] at *
    cases h : fetch a <;> simp [h, ih]

/-! ### C8 — missing required settings stop the script -/

/-- C8: for every environment in which a required setting (the project
endpoint or the orchestrator agent id) is absent or strips to the empty
string, the startup stops with the error message naming that setting,
and never produces the `AppConfig` from which every network client is
built — so no network call is attempted. -/
theorem read_setting_missing_stops (env : String → Option String)
    (h : strippedSetting env "PROJECT_ENDPOINT" "" = "" ∨
         strippedSetting env "ORCHESTRATOR_AGENT_ID" "" = "") :
    (appInit env = Except.error (missingMsg "PROJECT_ENDPOINT") ∨
     appInit env = Except.error (missingMsg "ORCHESTRATOR_AGENT_ID")) ∧
    ∀ cfg : AppConfig, appInit env ≠ Except.ok cfg := by
  have hmain : appInit env = Except.error (missingMsg "PROJECT_ENDPOINT") ∨
      appInit env = Except.error (missingMsg "ORCHESTRATOR_AGENT_ID") := by
    by_cases hep : strippedSetting env "PROJECT_ENDPOINT" "" = ""
    · left
      simp [appInit, read_setting, hep, bind, Except.bind]
    · right
      have hagent := h.resolve_left hep
      simp [appInit, read_setting, hep, hagent, bind, Except.bind]
  refine ⟨hmain, ?_⟩
  intro cfg hcfg
  rcases hmain with hm | hm <;> rw [hm] at hcfg <;> cases hcfg

/-- C8 witness: with an entirely empty environment the startup stops on
the endpoint setting. -/
theorem read_setting_missing_stops_witness :
    (appInit emptyEnv = Except.error (missingMsg "PROJECT_ENDPOINT") ∨
     appInit emptyEnv = Except.error (missingMsg "ORCHESTRATOR_AGENT_ID")) ∧
    ∀ cfg : AppConfig, appInit emptyEnv ≠ Except.ok cfg :=
  read_setting_missing_stops emptyEnv (Or.inl rfl)

/-! ### C9 — unresolvable file metadata degrades to a placeholder -/

/-- C9: a file id whose metadata fetch fails does not abort the
listing: the listing still has one row per id, the failing id's row
carries the `"(unavailable)"` placeholder and an unknown size, and every
id whose fetch succeeds is still resolved to its filename and size. -/
theorem listing_degrades (fileIds : List String)
    (fetch : String → Except Unit FileMeta) (i : Nat) (fid : String)
    (hfid : fileIds[i]? = some fid) (hfail : fetch fid = Except.error ()) :
    (list_agent_ci_files fileIds fetch).length = fileIds.length ∧
    (list_agent_ci_files fileIds fetch)[i]? =
      some { fileId := fid, filename := "(unavailable)", bytes := none } ∧
    ∀ (j : Nat) (gid : String) (meta : FileMeta), fileIds[j]? = some gid →
      fetch gid = Except.ok meta →
      (list_agent_ci_files fileIds fetch)[j]? =
        some { fileId := gid, filename := meta.filename.getD "", bytes := meta.bytes } := by
  refine ⟨by simp [list_agent_ci_files], ?_, ?_⟩
  · simp [list_agent_ci_files, List.getElem?_map, hfid, hfail]
  · intro j gid meta hj hok
    simp [list_agent_ci_files, List.getElem?_map, hj, hok]

/-- C9 witness: listing `["good", "bad"]` against an oracle that fails
on `"bad"` keeps both rows, the second as a placeholder. -/
theorem listing_degrades_witness :
    (list_agent_ci_files ["good", "bad"] sampleFetch).length = (["good", "bad"] : List String).length ∧
    (list_agent_ci_files ["good", "bad"] sampleFetch)[1]? =
      some { fileId := "bad", filename := "(unavailable)", bytes := none } ∧
    ∀ (j : Nat) (gid : String) (meta : FileMeta), (["good", "bad"] : List String)[j]? = some gid →
      sampleFetch gid = Except.ok meta →
      (list_agent_ci_files ["good", "bad"] sampleFetch)[j]? =
        some { fileId := gid, filename := meta.filename.getD "", bytes := meta.bytes } :=
  listing_degrades ["good", "bad"] sampleFetch 1 "bad" rfl rfl

/-! ### C10 — updates always keep the code-interpreter tool -/

/-- C10: every tool-resources update body built by
`set_agent_ci_file_ids` contains a code-interpreter tool entry — the
agent's tools are kept and the entry is appended if it was absent — and
carries exactly the requested file-id list. -/
theorem update_preserves_ci_tool (tools : List ToolEntry) (fileIds : List String) :
    (set_agent_ci_file_ids tools fileIds).tools.any
      (fun t => t == some "code_interpreter") = true ∧
    (set_agent_ci_file_ids tools fileIds).file_ids = fileIds ∧
    ((set_agent_ci_file_ids tools fileIds).tools = tools ∨
     (set_agent_ci_file_ids tools fileIds).tools = tools ++ [some "code_interpreter"]) := by
  cases h : tools.any (fun t => t == some "code_interpreter") with
  | true =>
    refine ⟨?_, rfl, Or.inl ?_⟩ <;> simp [set_agent_ci_file_ids, ensureCITool, h]
  | false =>
    refine ⟨?_, rfl, Or.inr ?_⟩ <;> simp [set_agent_ci_file_ids, ensureCITool, h]

/-! ### C7 — best-effort delete cannot affect the primary result -/

/-- C7: in the overwrite branch, the outcome of the best-effort delete
of the superseded old file id is irrelevant: for any two delete
outcomes the handler's result is identical, no error is surfaced, the
success banner is shown, and the persisted id list is the canonical
one. -/
theorem overwrite_delete_swallowed (ciFiles : List CIFileRow)
    (newName newId : String) (old : CIFileRow)
    (hold : lookupByName ciFiles (pyLower newName) = some old)
    (d1 d2 : Except String Unit) :
    uploadPersistOutcome ciFiles newName newId d1 =
      uploadPersistOutcome ciFiles newName newId d2 ∧
    (uploadPersistOutcome ciFiles newName newId d1).surfacedError = none ∧
    (uploadPersistOutcome ciFiles newName newId d1).success.isSome = true ∧
    (uploadPersistOutcome ciFiles newName newId d1).ids =
      uploadPersistIds ciFiles newName newId := by
  refine ⟨?_, ?_, ?_, ?_⟩ <;>
    simp [uploadPersistOutcome, uploadPersistIds, hold]

/-- C7 witness: overwriting `data.csv` on a one-row agent gives the
same outcome whether the old-id delete succeeds or raises. -/
theorem overwrite_delete_swallowed_witness :
    uploadPersistOutcome oneRow "Data.csv" "id9" (Except.ok ()) =
      uploadPersistOutcome oneRow "Data.csv" "id9" (Except.error "delete failed") ∧
    (uploadPersistOutcome oneRow "Data.csv" "id9" (Except.ok ())).surfacedError = none ∧
    (uploadPersistOutcome oneRow "Data.csv" "id9" (Except.ok ())).success.isSome = true ∧
    (uploadPersistOutcome oneRow "Data.csv" "id9" (Except.ok ())).ids =
      uploadPersistIds oneRow "Data.csv" "id9" :=
  overwrite_delete_swallowed oneRow "Data.csv" "id9"
    { fileId := "id1", filename := "data.csv", bytes := some 10 } rfl
    (Except.ok ()) (Except.error "delete failed")

/-! ### C2 — overwrite replaces the old id in place -/

/-- C2: when the uploaded filename case-insensitively matches a listed
file (the dict lookup yields the matched row `old`), the persisted id
list keeps its length, every position holding the matched old id now
holds the new id, and every other position is unchanged. -/
theorem overwrite_replaces_in_place (ciFiles : List CIFileRow)
    (newName newId : String) (old : CIFileRow)
    (hold : lookupByName ciFiles (pyLower newName) = some old) :
    (uploadPersistIds ciFiles newName newId).length =
      (ciFiles.map (fun e => e.fileId)).length ∧
    ∀ (i : Nat) (fid : String), (ciFiles.map (fun e => e.fileId))[i]? = some fid →
      (uploadPersistIds ciFiles newName newId)[i]? =
        some (if fid == old.fileId then newId else fid) := by
  have hres : uploadPersistIds ciFiles newName newId =
      (ciFiles.map (fun e => e.fileId)).map
        (fun fid => if fid == old.fileId then newId else fid) := by
    simp [uploadPersistIds, uploadPersistOutcome, hold]
  constructor
  · rw [hres]
    simp
  · intro i fid hfid
    rw [hres, List.getElem?_map, hfid]
    rfl

/-- C2 witness: uploading `DATA.CSV` over a two-row agent replaces
`id2` (the row named `data.csv`) in place and keeps `id1` at its
position. -/
theorem overwrite_replaces_in_place_witness :
    (uploadPersistIds twoRows "DATA.CSV" "id9").length =
      (twoRows.map (fun e => e.fileId)).length ∧
    ∀ (i : Nat) (fid : String), (twoRows.map (fun e => e.fileId))[i]? = some fid →
      (uploadPersistIds twoRows "DATA.CSV" "id9")[i]? =
        some (if fid == "id2" then "id9" else fid) :=
  overwrite_replaces_in_place twoRows "DATA.CSV" "id9"
    { fileId := "id2", filename := "data.csv", bytes := some 10 } rfl

/-! ### C3 — unmatched uploads append -/

/-- C3: when no listed filename case-insensitively matches the uploaded
name, the persisted id list is the previous list with the new id
appended: one longer, and containing the new id. -/
theorem append_when_unmatched (ciFiles : List CIFileRow)
    (newName newId : String)
    (h : ∀ e ∈ ciFiles, pyLower e.filename ≠ pyLower newName) :
    uploadPersistIds ciFiles newName newId =
      ciFiles.map (fun e => e.fileId) ++ [newId] ∧
    (uploadPersistIds ciFiles newName newId).length = ciFiles.length + 1 ∧
    newId ∈ uploadPersistIds ciFiles newName newId := by
  have hnone : lookupByName ciFiles (pyLower newName) = none := by
    rw [lookupByName, List.find?_eq_none]
    intro e he
    simp only [List.mem_reverse] at he
    simpa using h e he
  have hres : uploadPersistIds ciFiles newName newId =
      ciFiles.map (fun e => e.fileId) ++ [newId] := by
    simp [uploadPersistIds, uploadPersistOutcome, hnone]
  refine ⟨hres, ?_, ?_⟩
  · rw [hres]
    simp
  · rw [hres]
    simp

/-- C3 witness: uploading `b.csv` to an agent holding only `data.csv`
appends the new id. -/
theorem append_when_unmatched_witness :
    uploadPersistIds oneRow "b.csv" "id2" =
      oneRow.map (fun e => e.fileId) ++ ["id2"] ∧
    (uploadPersistIds oneRow "b.csv" "id2").length = oneRow.length + 1 ∧
    "id2" ∈ uploadPersistIds oneRow "b.csv" "id2" :=
  append_when_unmatched oneRow "b.csv" "id2" (by decide)

/-! ### C5 — the polling loop -/

/-- Advancing the polling loop: if, starting from fetch index `i`, the
next `k` statuses are in the polling set and the `k`-th is not, the
loop performs exactly `k` more sleeps of 2 units and returns the first
out-of-set status. -/
theorem pollLoop_exit (statuses : Nat → String) :
    ∀ (k fuel i slept : Nat), pollingStatus (statuses (i + k)) = false →
      (∀ j, j < k → pollingStatus (statuses (i + j)) = true) → k < fuel →
      pollLoop statuses fuel i slept = some (slept + 2 * k, statuses (i + k)) := by
  intro k
  induction k with
  | zero =>
    intro fuel i slept hk _ hf
    match fuel, hf with
    | Nat.succ f, _ =>
      simp only [Nat.add_zero] at hk
      simp [pollLoop, hk]
  | succ k ih =>
    intro fuel i slept hk hmin hf
    match fuel, hf with
    | Nat.succ f, hf =>
      have h0 : pollingStatus (statuses i) = true := by
        simpa using hmin 0 (Nat.succ_pos k)
      have hk' : pollingStatus (statuses (i + 1 + k)) = false := by
        have he : i + 1 + k = i + (k + 1) := by omega
        rw [he]
        exact hk
      have hmin' : ∀ j, j < k → pollingStatus (statuses (i + 1 + j)) = true := by
        intro j hj
        have he : i + 1 + j = i + (j + 1) := by omega
        rw [he]
        exact hmin (j + 1) (by omega)
      have hf' : k < f := by omega
      have := ih f (i + 1) (slept + 2) hk' hmin' hf'
      rw [pollLoop, h0]
      simp only [if_true]
      rw [this]
      have he1 : slept + 2 + 2 * k = slept + 2 * (k + 1) := by omega
      have he2 : i + 1 + k = i + (k + 1) := by omega
      rw [he1, he2]

/-- C5: the Run handler's poll keeps looping exactly while the fetched
status is in `{queued, in_progress, requires_action}` (the `k`-th fetch
is the first whose status leaves the set, so the loop sleeps 2 units
between each of the `k` refetches), terminates as soon as the status
leaves the set — whatever the out-of-set value is — and the status it
hands to the display is the final fetched status verbatim. -/
theorem runPoll_terminates (statuses : Nat → String) (k : Nat)
    (hk : pollingStatus (statuses k) = false)
    (hmin : ∀ j, j < k → pollingStatus (statuses j) = true)
    (fuel : Nat) (hfuel : k < fuel) :
    runPoll statuses fuel = some (2 * k, statuses k) := by
  have := pollLoop_exit statuses k fuel 0 0
    (by simpa using hk) (by simpa using hmin) hfuel
  simpa [runPoll] using this

/-- C5 witness: a run polled `queued`, `in_progress`, `completed` exits
at the third fetch after 4 units of sleep and displays `completed`. -/
theorem runPoll_terminates_witness :
    runPoll sampleStatuses 3 = some (4, "completed") := by
  have := runPoll_terminates sampleStatuses 2 (by decide)
    (by decide) 3 (by decide)
  simpa using this

/-! ### C4 — per-file delete -/

/-- C4 as stated fails when the remote id list contains the same id
twice (uniqueness is not enforced remotely): with `file_ids = [a, a]`
(N = 2), deleting the listed file `a` filters out **every** occurrence
and persists 0 ids, not N − 1 = 1. -/
theorem delete_dup_id_counterexample :
    (dupIdRows.map (fun e => e.fileId)).length = 2 ∧
    "a" ∈ dupIdRows.map (fun e => e.fileId) ∧
    deleteRemaining dupIdRows "a" = [] ∧
    (deleteRemaining dupIdRows "a").length ≠ 2 - 1 :=
  ⟨rfl, by decide, rfl, by decide⟩

/-- C4 amended: for every agent whose tool-resources holds N
**distinct** code-interpreter file ids, deleting one listed file
persists exactly N − 1 ids, and the deleted id is absent from the
persisted list and from every subsequent listing of it. -/
theorem delete_removes_one (ciFiles : List CIFileRow) (targetId : String)
    (hnodup : (ciFiles.map (fun e => e.fileId)).Nodup)
    (hmem : targetId ∈ ciFiles.map (fun e => e.fileId)) :
    (deleteRemaining ciFiles targetId).length = ciFiles.length - 1 ∧
    targetId ∉ deleteRemaining ciFiles targetId ∧
    ∀ fetch : String → Except Unit FileMeta,
      targetId ∉ (list_agent_ci_files (deleteRemaining ciFiles targetId) fetch).map
        (fun r => r.fileId) := by
  have h0 : deleteRemaining ciFiles targetId =
      (ciFiles.map (fun e => e.fileId)).filter (fun x => !(x == targetId)) := by
    rw [deleteRemaining, List.filter_map]
    rfl
  have h1 : (ciFiles.map (fun e => e.fileId)).filter (fun x => !(x == targetId)) =
      (ciFiles.map (fun e => e.fileId)).erase targetId := by
    rw [hnodup.erase_eq_filter targetId]
    rfl
  have hnotmem : targetId ∉ deleteRemaining ciFiles targetId := by
    rw [h0]
    simp [List.mem_filter]
  refine ⟨?_, hnotmem, ?_⟩
  · rw [h0, h1, List.length_erase_of_mem hmem, List.length_map]
  · intro fetch
    rw [list_agent_ci_files_ids]
    exact hnotmem

/-- C4 witness: deleting `id1` from a two-file agent with distinct ids
leaves exactly one id and `id1` is gone. -/
theorem delete_removes_one_witness :
    (deleteRemaining twoRows "id1").length = twoRows.length - 1 ∧
    "id1" ∉ deleteRemaining twoRows "id1" ∧
    ∀ fetch : String → Except Unit FileMeta,
      "id1" ∉ (list_agent_ci_files (deleteRemaining twoRows "id1") fetch).map
        (fun r => r.fileId) :=
  delete_removes_one twoRows "id1" (by decide) (by decide)

/-! ### C6 — the assistant-output filter -/

/-- C6 as stated fails on a page holding an empty text segment: the
handler's truthiness test drops the empty value, so the rendered text
is the blank-line join of the **non-empty** segments only, not of all
segments as the claim demands. -/
theorem output_empty_segment_counterexample :
    renderRunOutput emptySegThread "run1" =
      RunOutput.text ("a" ++ "\n\n" ++ "b") ∧
    specRenderRunOutput emptySegThread "run1" =
      RunOutput.text ("a" ++ "\n\n" ++ "" ++ "\n\n" ++ "b") ∧
    renderRunOutput emptySegThread "run1" ≠ specRenderRunOutput emptySegThread "run1" :=
  ⟨rfl, rfl, by decide⟩

/-- Commuting the run filter with the role test: the chunks collected
over the run-filtered page are exactly the kept text parts of the
assistant entries of that run, in listing order. -/
theorem collectChunks_filter (thread : List ChatMessage) (r : String) :
    collectChunks (listMessagesByRun thread r) =
      ((thread.filter (fun m => m.role == "assistant" && m.runId == r)).map
        (fun m => m.parts.filterMap keepText)).flatten := by
  induction thread with
  | nil => rfl
  | cons m t ih =>
    cases hrun : (m.runId == r) with
    | false =>
      have h1 : listMessagesByRun (m :: t) r = listMessagesByRun t r := by
        simp only [listMessagesByRun, List.filter_cons, hrun]
        rfl
      have h2 : (m :: t).filter (fun x => x.role == "assistant" && x.runId == r) =
          t.filter (fun x => x.role == "assistant" && x.runId == r) := by
        simp [List.filter_cons, hrun]
      rw [h1, h2]
      exact ih
    | true =>
      have h1 : listMessagesByRun (m :: t) r = m :: listMessagesByRun t r := by
        simp [listMessagesByRun, List.filter_cons, hrun]
      cases hrole : (m.role == "assistant") with
      | true =>
        have h2 : (m :: t).filter (fun x => x.role == "assistant" && x.runId == r) =
            m :: t.filter (fun x => x.role == "assistant" && x.runId == r) := by
          simp [List.filter_cons, hrun, hrole]
        rw [h1, h2]
        simp only [collectChunks, List.map_cons, List.flatten_cons, hrole, if_true]
        exact congrArg (fun l => List.filterMap keepText m.parts ++ l) ih
      | false =>
        have h2 : (m :: t).filter (fun x => x.role == "assistant" && x.runId == r) =
            t.filter (fun x => x.role == "assistant" && x.runId == r) := by
          simp [List.filter_cons, hrole]
        rw [h1, h2]
        simp only [collectChunks, List.map_cons, List.flatten_cons, hrole]
        simp only [Bool.false_eq_true, if_false, List.nil_append]
        exact ih

/-- C6 amended: the displayed output is built only from assistant-role
entries of the just-created run: their **non-empty** text segments are
concatenated in listing order joined by a blank line, and when zero
non-empty segments exist the handler reports the explicit no-response
warning instead of rendering an empty string. -/
theorem renderRunOutput_spec (thread : List ChatMessage) (r : String) :
    collectChunks (listMessagesByRun thread r) =
      ((thread.filter (fun m => m.role == "assistant" && m.runId == r)).map
        (fun m => m.parts.filterMap keepText)).flatten ∧
    (collectChunks (listMessagesByRun thread r) = [] →
      renderRunOutput thread r = RunOutput.noResponse) ∧
    (collectChunks (listMessagesByRun thread r) ≠ [] →
      renderRunOutput thread r =
        RunOutput.text (String.intercalate "\n\n"
          (collectChunks (listMessagesByRun thread r)))) := by
  refine ⟨collectChunks_filter thread r, ?_, ?_⟩
  · intro h
    simp [renderRunOutput, h]
  · intro h
    cases hc : collectChunks (listMessagesByRun thread r) with
    | nil => exact absurd hc h
    | cons a l => simp [renderRunOutput, hc]

/-! ### C1 — at most one id per case-insensitive filename -/

/-- C1 as stated fails when the pre-existing list already holds two
entries whose filenames match case-insensitively: the name dict keeps
only the **last** matching row (`id2`), so the handler replaces `id2`
with the new id and leaves `id1` — still named `Data.csv` — in place.
Two ids then map to the uploaded name `data.csv`. -/
theorem dup_name_counterexample :
    (dupNameRows.filter (fun e => pyLower e.filename == pyLower "data.csv")).length = 2 ∧
    uploadPersistIds dupNameRows "data.csv" "id3" = ["id1", "id3"] ∧
    matchingCount dupNameRows "data.csv" "id3" = 2 ∧
    ¬ matchingCount dupNameRows "data.csv" "id3" ≤ 1 :=
  ⟨rfl, rfl, rfl, by decide⟩

/-- The freshly uploaded id resolves to the uploaded filename. -/
theorem postName_newId (ciFiles : List CIFileRow) (newName newId : String) :
    postName ciFiles newName newId newId = newName := by
  simp [postName]

/-- A pre-existing id (other than the fresh one) resolves to the
filename of some listed row carrying that id. -/
theorem postName_of_mem (ciFiles : List CIFileRow) (newName newId fid : String)
    (hfid : fid ∈ ciFiles.map (fun e => e.fileId)) (hne : fid ≠ newId) :
    ∃ e, e ∈ ciFiles ∧ e.fileId = fid ∧
      postName ciFiles newName newId fid = e.filename := by
  obtain ⟨e, he, hfe⟩ := List.mem_map.mp hfid
  have hsome : (ciFiles.find? (fun x => x.fileId == fid)).isSome = true :=
    List.find?_isSome.mpr ⟨e, he, by simp [hfe]⟩
  obtain ⟨e0, he0⟩ := Option.isSome_iff_exists.mp hsome
  have he0mem := List.mem_of_find?_eq_some he0
  have he0id : e0.fileId = fid := by simpa using List.find?_some he0
  refine ⟨e0, he0mem, he0id, ?_⟩
  simp [postName, hne, he0]

/-- C1 amended: provided the uploaded file's id is fresh and the
agent's pre-existing file ids are distinct with **at most one** listed
row whose filename matches the uploaded name case-insensitively, the
handler either replaces that row's id in place or appends the new id,
and the persisted list maps at most one id to the uploaded name.
(When two pre-existing rows match the name, only the last matching id
is replaced and two ids remain for the name —
see the counterexample.) -/
theorem upload_unique_name (ciFiles : List CIFileRow) (newName newId : String)
    (hnodup : (ciFiles.map (fun e => e.fileId)).Nodup)
    (hfresh : newId ∉ ciFiles.map (fun e => e.fileId))
    (hone : (ciFiles.filter (fun e => pyLower e.filename == pyLower newName)).length ≤ 1) :
    matchingCount ciFiles newName newId ≤ 1 ∧
    ((∃ old : CIFileRow, lookupByName ciFiles (pyLower newName) = some old ∧
        uploadPersistIds ciFiles newName newId =
          (ciFiles.map (fun e => e.fileId)).map
            (fun fid => if fid == old.fileId then newId else fid)) ∨
     (lookupByName ciFiles (pyLower newName) = none ∧
        uploadPersistIds ciFiles newName newId =
          ciFiles.map (fun e => e.fileId) ++ [newId])) := by
  cases hlk : lookupByName ciFiles (pyLower newName) with
  | none =>
    have hres : uploadPersistIds ciFiles newName newId =
        ciFiles.map (fun e => e.fileId) ++ [newId] := by
      simp [uploadPersistIds, uploadPersistOutcome, hlk]
    have hnomatch : ∀ e ∈ ciFiles, (pyLower e.filename == pyLower newName) = false := by
      intro e he
      have := List.find?_eq_none.mp (by rw [lookupByName] at hlk; exact hlk) e
        (List.mem_reverse.mpr he)
      simpa using this
    refine ⟨?_, Or.inr ⟨rfl, hres⟩⟩
    rw [matchingCount, hres, List.filter_append]
    have hids : (ciFiles.map (fun e => e.fileId)).filter
        (fun fid => pyLower (postName ciFiles newName newId fid) == pyLower newName) = [] := by
      rw [List.filter_eq_nil_iff]
      intro fid hfid
      have hne : fid ≠ newId := fun h => hfresh (h ▸ hfid)
      obtain ⟨e0, he0mem, _, hpn⟩ := postName_of_mem ciFiles newName newId fid hfid hne
      rw [hpn]
      simp [hnomatch e0 he0mem]
    rw [hids]
    have hnew : ([newId].filter
        (fun fid => pyLower (postName ciFiles newName newId fid) == pyLower newName)) = [newId] := by
      simp [List.filter, postName_newId]
    rw [hnew]
    simp
  | some old =>
    have hres : uploadPersistIds ciFiles newName newId =
        (ciFiles.map (fun e => e.fileId)).map
          (fun fid => if fid == old.fileId then newId else fid) := by
      simp [uploadPersistIds, uploadPersistOutcome, hlk]
    have holdmem : old ∈ ciFiles := by
      have := List.mem_of_find?_eq_some (by rw [lookupByName] at hlk; exact hlk)
      exact List.mem_reverse.mp this
    have holdmatch : (pyLower old.filename == pyLower newName) = true := by
      have := List.find?_some (by rw [lookupByName] at hlk; exact hlk)
      exact this
    refine ⟨?_, Or.inl ⟨old, rfl, hres⟩⟩
    rw [matchingCount, hres, List.filter_map, List.length_map, ← List.countP_eq_length_filter]
    have hpoint : ∀ fid ∈ ciFiles.map (fun e => e.fileId),
        ((fun fid => pyLower (postName ciFiles newName newId fid) == pyLower newName) ∘
          (fun fid => if fid == old.fileId then newId else fid)) fid = (fid == old.fileId) := by
      intro fid hfid
      by_cases hfo : fid = old.fileId
      · subst hfo
        simp [Function.comp, postName_newId]
      · have hne : fid ≠ newId := fun h => hfresh (h ▸ hfid)
        obtain ⟨e0, he0mem, he0id, hpn⟩ := postName_of_mem ciFiles newName newId fid hfid hne
        have hnomatch0 : (pyLower e0.filename == pyLower newName) = false := by
          by_contra hcon
          have hmatch0 : (pyLower e0.filename == pyLower newName) = true := by
            cases h : (pyLower e0.filename == pyLower newName) with
            | true => rfl
            | false => exact absurd h hcon
          have he0filter : e0 ∈ ciFiles.filter
              (fun e => pyLower e.filename == pyLower newName) :=
            List.mem_filter.mpr ⟨he0mem, hmatch0⟩
          have holdfilter : old ∈ ciFiles.filter
              (fun e => pyLower e.filename == pyLower newName) :=
            List.mem_filter.mpr ⟨holdmem, holdmatch⟩
          have hne0 : e0 ≠ old := by
            intro h
            exact hfo (by rw [← he0id, h])
          have := two_mem_length he0filter holdfilter hne0
          omega
        simp [Function.comp, hfo, hpn, hnomatch0]
    have hcount : ((ciFiles.map (fun e => e.fileId)).countP
        ((fun fid => pyLower (postName ciFiles newName newId fid) == pyLower newName) ∘
          (fun fid => if fid == old.fileId then newId else fid))) =
        ((ciFiles.map (fun e => e.fileId)).countP (fun fid => fid == old.fileId)) := by
      apply List.countP_congr
      intro x hx
      rw [hpoint x hx]
    rw [hcount, ← List.count_eq_countP]
    exact List.nodup_iff_count_le_one.mp hnodup old.fileId

/-- C1 witness: uploading `Data.csv` over an agent holding exactly one
`data.csv` leaves exactly one id for the name, by replacement. -/
theorem upload_unique_name_witness :
    matchingCount oneRow "Data.csv" "id2" ≤ 1 ∧
    ((∃ old : CIFileRow, lookupByName oneRow (pyLower "Data.csv") = some old ∧
        uploadPersistIds oneRow "Data.csv" "id2" =
          (oneRow.map (fun e => e.fileId)).map
            (fun fid => if fid == old.fileId then "id2" else fid)) ∨
     (lookupByName oneRow (pyLower "Data.csv") = none ∧
        uploadPersistIds oneRow "Data.csv" "id2" =
          oneRow.map (fun e => e.fileId) ++ ["id2"])) :=
  upload_unique_name oneRow "Data.csv" "id2" (by decide) (by decide) (by decide)

/-- C6 witness: the amended rendering property instantiated on the
one-message thread. -/
theorem renderRunOutput_spec_witness :
    collectChunks (listMessagesByRun emptySegThread "run1") =
      ((emptySegThread.filter (fun m => m.role == "assistant" && m.runId == "run1")).map
        (fun m => m.parts.filterMap keepText)).flatten ∧
    (collectChunks (listMessagesByRun emptySegThread "run1") = [] →
      renderRunOutput emptySegThread "run1" = RunOutput.noResponse) ∧
    (collectChunks (listMessagesByRun emptySegThread "run1") ≠ [] →
      renderRunOutput emptySegThread "run1" =
        RunOutput.text (String.intercalate "\n\n"
          (collectChunks (listMessagesByRun emptySegThread "run1")))) :=
  renderRunOutput_spec emptySegThread "run1"
